import Mathlib

/-!
Verification of the morphosamplers sampler module (src/morphosamplers/sampler.py).

The embedding models numpy arrays as a shape (a list of dimension sizes) together
with a row-major flat data function into the rationals; machine floats are modelled
by exact rational arithmetic.  scipy Rotation objects are modelled as 3 by 3
rational matrices acting on vectors, and scipy.ndimage.map_coordinates is modelled
by an abstract pointwise interpolation function attached to the volume, together
with the shape checks map_coordinates performs (the coordinate-row count must equal
the volume rank, and the spline order must be at most 5).  Fallible numpy
operations (reshape, stack of an empty list, broadcasting) are modelled with
Option: a none result stands for a raised exception.
-/

/-- Product of the dimension sizes of a shape: the number of elements of an array. -/
def listProd (l : List ℕ) : ℕ := l.prod

/-- Row-major (C order) flat offset of a multi-index into a given shape. -/
def flatIdx : List ℕ → List ℕ → ℕ
  | _, [] => 0
  | [], _ => 0
  | _ :: ds, i :: is => i * listProd ds + flatIdx ds is

/-- Inverse of flatIdx: recover the row-major multi-index of a flat offset. -/
def unflatten : List ℕ → ℕ → List ℕ
  | [], _ => []
  | _ :: ds, q => q / listProd ds :: unflatten ds (q % listProd ds)

/-- Swap the first and the last element of a list; this is the shape/index action
of numpy swapaxes with axes -1 and 0. -/
def swapFL : List α → List α
  | [] => []
  | [x] => [x]
  | x :: y :: l => (y :: l).getLastD x :: ((y :: l).dropLast ++ [x])

/-- Model of a numpy ndarray of rationals: a shape and a row-major flat data
function.  Values of the data function at offsets at or beyond the element count
are meaningless junk; theorems only constrain offsets inside the array. -/
structure Arr where
  shape : List ℕ
  data : ℕ → ℚ

/-- A 3-component coordinate vector. -/
def Vec3 := Fin 3 → ℚ

/-- Componentwise addition of coordinate vectors. -/
def vecAdd (u v : Vec3) : Vec3 := fun i => u i + v i

/-- The zero coordinate vector. -/
def zeroV : Vec3 := fun _ => 0

/-- Model of a scipy Rotation element: a 3 by 3 matrix of rationals.  Rotation
properties (orthogonality, unit determinant) are never used by the sampler code,
so they are not imposed. -/
def Rot := Matrix (Fin 3) (Fin 3) ℚ

/-- The identity rotation. -/
def idRot : Rot := fun i j => if i = j then 1 else 0

/-- Rotation.apply on a single vector: the matrix-vector product. -/
def rotApply (R : Rot) (v : Vec3) : Vec3 :=
  fun i => R i 0 * v 0 + R i 1 * v 1 + R i 2 * v 2

/-- The j-th 3-vector of an array read as a flat list of points, as produced by
reshape(-1, 3): the scalars at offsets 3*j, 3*j+1, 3*j+2. -/
def gridPoint (a : Arr) (j : ℕ) : Vec3 :=
  fun c => a.data (3 * j + c.val)

/-- Model of numpy swapaxes(a, -1, 0): swap the first and last axes.  The entry
at a multi-index of the result is the entry of the input at the multi-index with
first and last components exchanged. -/
def swapaxesFL (a : Arr) : Arr :=
  { shape := swapFL a.shape
    data := fun q => a.data (flatIdx a.shape (swapFL (unflatten (swapFL a.shape) q))) }

/-- Model of generate_sampling_coordinates from sampler.py.  The grid is reshaped
to a flat list of N points, each orientation is applied to every point, the B
rotated copies are stacked along axis 1 giving an (N, B, 3) array, the positions
array of shape (len positions, 3) is added with numpy broadcasting, and the sum is
reshaped to (-1, *grid.shape).  none models the numpy exceptions: reshape(-1, 3)
on an element count not divisible by 3, the final reshape on an empty grid (the
inferred dimension is ambiguous when the known product is zero), np.stack on an
empty list when orientations is empty, and a broadcast mismatch when the two batch
lengths differ and neither is 1. -/
def generate_sampling_coordinates (grid : Arr) (positions : List Vec3)
    (orientations : List Rot) : Option Arr :=
  let sz := listProd grid.shape
  let B := orientations.length
  let Bp := positions.length
  if ¬ (3 ∣ sz) then none
  else if sz = 0 then none
  else if B = 0 then none
  else if ¬ (B = Bp ∨ B = 1 ∨ Bp = 1) then none
  else
    let Bo := if B = 1 then Bp else B
    some { shape := Bo :: grid.shape
           data := fun q =>
             let j := q / (Bo * 3)
             let i := q % (Bo * 3) / 3
             vecAdd (rotApply (orientations.getD (i % B) idRot) (gridPoint grid j))
               (positions.getD (i % Bp) zeroV)
               ⟨q % 3, Nat.mod_lt _ (by norm_num)⟩ }

/-- Model of a volume passed to sample_volume_at_coordinates: its rank, and an
abstract pointwise interpolation function standing for map_coordinates of the
chosen spline order at a single 3d point.  The content of the volume beyond its
interpolation behaviour is irrelevant to the claims. -/
structure Volume where
  ndim : ℕ
  interp : Vec3 → ℚ

/-- The q-th 3-vector of a coordinate array read as reshape(-1, 3). -/
def coordPoint (a : Arr) (q : ℕ) : Vec3 :=
  fun c => a.data (3 * q + c.val)

/-- Model of sample_volume_at_coordinates from sampler.py.  The shape is unpacked
as batch, *grid_shape, last (requiring at least two axes), the coordinates are
reshaped to (-1, 3) and transposed for map_coordinates (which checks that the
coordinate-row count 3 equals the volume rank and that the spline order is at
most 5), the flat sampled vector is reshaped to (*grid_shape, batch) (requiring
the element counts to agree), and the result is swapaxes(-1, 0). -/
def sample_volume_at_coordinates (vol : Volume) (coords : Arr) (order : ℕ) :
    Option Arr :=
  match coords.shape with
  | [] => none
  | [_] => none
  | batch :: d :: rest =>
    let gs := (d :: rest).dropLast
    let sz := listProd coords.shape
    if ¬ (3 ∣ sz) then none
    else if vol.ndim ≠ 3 then none
    else if 5 < order then none
    else if sz / 3 ≠ listProd gs * batch then none
    else some (swapaxesFL { shape := gs ++ [batch]
                            data := fun q => vol.interp (coordPoint coords q) })

/-- Coordinate values of np.linspace(-0.5, 0.5, ln) * (ln - 1) * spacing at index
i, with the single-point branch of generate_3D_grid: an axis of length 1 gets the
constant coordinate 0. -/
def coord1D (ln : ℕ) (sp : ℚ) (i : ℕ) : ℚ :=
  if ln = 1 then 0
  else (-(1 : ℚ) / 2 + (i : ℚ) / ((ln : ℚ) - 1)) * ((ln : ℚ) - 1) * sp

/-- Shape of the stacked meshgrid of generate_3D_grid, before or after the squeeze:
numpy squeeze removes every axis of size 1. -/
def gridShape3D (s : Fin 3 → ℕ) (squeeze : Bool) : List ℕ :=
  if squeeze then ([s 0, s 1, s 2, 3].filter (fun d => d ≠ 1))
  else [s 0, s 1, s 2, 3]

/-- Model of generate_3D_grid from sampler.py: the stack along axis 3 of
np.meshgrid of the three per-axis coordinate vectors with indexing ij, so the
element at (i0, i1, i2, c) is the coordinate of axis c at index ic.  Squeezing
removes the size-1 axes from the shape and leaves the row-major flat data
unchanged. -/
def generate_3D_grid (s : Fin 3 → ℕ) (sp : Fin 3 → ℚ) (squeeze : Bool) : Arr :=
  { shape := gridShape3D s squeeze
    data := fun q =>
      let c : Fin 3 := ⟨q % 3, Nat.mod_lt _ (by norm_num)⟩
      let r := q / 3
      coord1D (s c) (sp c)
        (if c.val = 0 then r / s 2 / s 1 else if c.val = 1 then r / s 2 % s 1 else r % s 2) }

/-- Model of generate_3D_grid on raw integer shape input, recording the one
failure the code can produce: np.linspace raises for a negative sample count (a
zero count yields an empty axis without error, and the spacing is never
validated). -/
def generate_3D_grid_checked (s : Fin 3 → ℤ) (sp : Fin 3 → ℚ) (squeeze : Bool) :
    Option Arr :=
  if s 0 < 0 ∨ s 1 < 0 ∨ s 2 < 0 then none
  else some (generate_3D_grid (fun d => (s d).toNat) sp squeeze)

/-- Model of generate_2D_grid from sampler.py: delegate to generate_3D_grid with a
third axis of length 1 and unit spacing, with the default squeeze=True. -/
def generate_2D_grid (s : Fin 2 → ℕ) (sp : Fin 2 → ℚ) : Arr :=
  generate_3D_grid ![s 0, s 1, 1] ![sp 0, sp 1, 1] true

/-- Model of generate_1D_grid from sampler.py: delegate to generate_3D_grid with
the first two axes of length 1 and unit spacing, with the default squeeze=True. -/
def generate_1D_grid (m : ℕ) (sp : ℚ) : Arr :=
  generate_3D_grid ![1, 1, m] ![1, 1, sp] true

/-- Convenience constructor for concrete arrays: data from a list, junk 0 beyond. -/
def arrOfList (s : List ℕ) (l : List ℚ) : Arr :=
  { shape := s, data := fun q => l.getD q 0 }

/-! Index arithmetic lemmas for row-major flattening. -/

theorem listProd_nil : listProd [] = 1 := rfl

theorem listProd_cons (d : ℕ) (l : List ℕ) : listProd (d :: l) = d * listProd l := by
  simp [listProd]

theorem listProd_concat (l : List ℕ) (d : ℕ) : listProd (l ++ [d]) = listProd l * d := by
  simp [listProd]

theorem listProd_pos_of_forall₂ {idx s : List ℕ} (h : List.Forall₂ (· < ·) idx s) :
    0 < listProd s := by
  induction h with
  | nil => simp [listProd]
  | cons hab _ ih =>
    rw [listProd_cons]
    exact Nat.mul_pos (Nat.lt_of_le_of_lt (Nat.zero_le _) hab) ih

theorem flatIdx_lt {idx s : List ℕ} (h : List.Forall₂ (· < ·) idx s) :
    flatIdx s idx < listProd s := by
  induction h with
  | nil => simp [flatIdx, listProd]
  | @cons i d is ds hab hrest ih =>
    have hP : 0 < listProd ds := listProd_pos_of_forall₂ hrest
    calc flatIdx (d :: ds) (i :: is) = i * listProd ds + flatIdx ds is := rfl
      _ < i * listProd ds + listProd ds := by omega
      _ = (i + 1) * listProd ds := by ring
      _ ≤ d * listProd ds := Nat.mul_le_mul_right _ hab
      _ = listProd (d :: ds) := (listProd_cons d ds).symm

theorem unflatten_flatIdx {idx s : List ℕ} (h : List.Forall₂ (· < ·) idx s) :
    unflatten s (flatIdx s idx) = idx := by
  induction h with
  | nil => rfl
  | @cons i d is ds hab hrest ih =>
    have hP : 0 < listProd ds := listProd_pos_of_forall₂ hrest
    have hf : flatIdx ds is < listProd ds := flatIdx_lt hrest
    show (i * listProd ds + flatIdx ds is) / listProd ds
          :: unflatten ds ((i * listProd ds + flatIdx ds is) % listProd ds) = i :: is
    rw [Nat.mul_comm i (listProd ds), Nat.mul_add_div hP, Nat.mul_add_mod,
      Nat.div_eq_of_lt hf, Nat.mod_eq_of_lt hf, Nat.add_zero, ih]

theorem flatIdx_concat {s idx : List ℕ} (d y : ℕ) (h : idx.length = s.length) :
    flatIdx (s ++ [d]) (idx ++ [y]) = flatIdx s idx * d + y := by
  induction s generalizing idx with
  | nil =>
    rw [List.length_nil, List.length_eq_zero] at h
    subst h
    show y * listProd [] + flatIdx [] [] = 0 * d + y
    simp [listProd, flatIdx]
  | cons a s' ih =>
    match idx with
    | [] => simp at h
    | i :: idx' =>
      have h' : idx'.length = s'.length := by simpa using h
      show i * listProd (s' ++ [d]) + flatIdx (s' ++ [d]) (idx' ++ [y])
            = (i * listProd s' + flatIdx s' idx') * d + y
      rw [listProd_concat, ih h']
      ring

theorem swapFL_concat (x y : ℕ) (l : List ℕ) :
    swapFL (x :: (l ++ [y])) = y :: (l ++ [x]) := by
  cases l with
  | nil => rfl
  | cons a t =>
    show (a :: (t ++ [y])).getLastD x :: ((a :: (t ++ [y])).dropLast ++ [x]) = _
    rw [show a :: (t ++ [y]) = (a :: t) ++ [y] by simp,
      List.getLastD_concat, List.dropLast_concat]

/-- Concrete 3-vector constructor. -/
def vec3 (x y z : ℚ) : Vec3 :=
  fun i => if i.val = 0 then x else if i.val = 1 then y else z

/-- The identity rotation agrees with the matrix one. -/
theorem idRot_eq_one : idRot = (1 : Matrix (Fin 3) (Fin 3) ℚ) := by
  funext i j
  show (if i = j then (1 : ℚ) else 0) = (1 : Matrix (Fin 3) (Fin 3) ℚ) i j
  rw [Matrix.one_apply]

/-- Applying the identity rotation is the identity on vectors. -/
theorem rotApply_id (v : Vec3) : rotApply idRot v = v := by
  funext i
  fin_cases i <;> simp [rotApply, idRot, Fin.ext_iff]

/-- Decomposition of the flat scalar offset 3*q + c of the stacked (N, B, 3)
buffer: the point index, the pose index and the component recovered by the
div/mod arithmetic of the model. -/
theorem decompose3 (B q c : ℕ) (hB : B ≠ 0) (hc : c < 3) :
    (3 * q + c) / (B * 3) = q / B ∧ (3 * q + c) % (B * 3) / 3 = q % B ∧
      (3 * q + c) % 3 = c := by
  have h1 : 3 * q + c = (B * 3) * (q / B) + (3 * (q % B) + c) := by
    conv_lhs => rw [← Nat.div_add_mod q B]
    ring
  have hb : q % B < B := Nat.mod_lt _ (Nat.pos_of_ne_zero hB)
  have h2 : 3 * (q % B) + c < B * 3 := by omega
  refine ⟨?_, ?_, by omega⟩
  · rw [h1, Nat.mul_add_div (by omega), Nat.div_eq_of_lt h2, Nat.add_zero]
  · rw [h1, Nat.mul_add_mod, Nat.mod_eq_of_lt h2, Nat.mul_add_div (by norm_num),
      Nat.div_eq_of_lt hc, Nat.add_zero]

/-- Normal form of generate_sampling_coordinates in the equal-length case: with B
positions and B rotations on a nonempty grid whose element count is a multiple of
3, the call succeeds and returns the stacked point-major buffer relabelled with
shape (B, *grid.shape). -/
theorem gen_eq_some (grid : Arr) (pos : List Vec3) (orient : List Rot) (B : ℕ)
    (h3 : 3 ∣ listProd grid.shape) (h0 : listProd grid.shape ≠ 0)
    (hp : pos.length = B) (ho : orient.length = B) (hB : B ≠ 0) :
    generate_sampling_coordinates grid pos orient = some
      { shape := B :: grid.shape
        data := fun q =>
          vecAdd (rotApply (orient.getD (q % (B * 3) / 3 % B) idRot)
              (gridPoint grid (q / (B * 3))))
            (pos.getD (q % (B * 3) / 3 % B) zeroV)
            ⟨q % 3, Nat.mod_lt _ (by norm_num)⟩ } := by
  subst ho
  simp only [generate_sampling_coordinates]
  rw [if_neg (not_not_intro h3), if_neg h0, if_neg (by omega : ¬ orient.length = 0),
    if_neg (not_not_intro (Or.inl hp.symm))]
  rw [hp]
  simp only [ite_self]

/-- C1 (amended): generate_sampling_coordinates with B positions and B rotations
on a valid nonempty grid succeeds and returns an array of shape
(B, *grid.shape, with the trailing 3 inside grid.shape), but the content is laid
out point-major: the 3-vector at flat point offset q is
orientations[q mod B] applied to flat grid point q div B, plus
positions[q mod B]; the batch axis label does not select a pose. -/
theorem c1_amended (grid : Arr) (pos : List Vec3) (orient : List Rot) (B : ℕ)
    (h3 : 3 ∣ listProd grid.shape) (h0 : listProd grid.shape ≠ 0)
    (hp : pos.length = B) (ho : orient.length = B) (hB : 1 ≤ B) :
    ∃ A, generate_sampling_coordinates grid pos orient = some A ∧
      A.shape = B :: grid.shape ∧
      ∀ q c, (hc : c < 3) →
        A.data (3 * q + c) =
          vecAdd (rotApply (orient.getD (q % B) idRot) (gridPoint grid (q / B)))
            (pos.getD (q % B) zeroV) ⟨c, hc⟩ := by
  refine ⟨_, gen_eq_some grid pos orient B h3 h0 hp ho (by omega), rfl, ?_⟩
  intro q c hc
  obtain ⟨hdiv, hmod, hc3⟩ := decompose3 B q c (by omega) hc
  simp only [hdiv, hmod, hc3, Nat.mod_mod_of_dvd q (dvd_refl B)]

/-- Concrete inputs refuting C1: a grid of two points (1,0,0) and (0,1,0), two
identity rotations, and two distinct positions. -/
def cexGrid1 : Arr := arrOfList [2, 3] [1, 0, 0, 0, 1, 0]

/-- Positions for the C1 counterexample. -/
def cexPos1 : List Vec3 := [vec3 0 0 0, vec3 10 0 0]

/-- Orientations for the C1 counterexample: two identity rotations. -/
def cexRot1 : List Rot := [idRot, idRot]

/-- C1 counterexample: with both orientations the identity and positions p0 = 0,
p1 = (10,0,0), the claim predicts the entry at batch 0, grid point 1, component 0
to be (orientations[0].apply(grid[1]) + positions[0])[0] = 0, but the produced
array holds 11 there (identity applied to grid point 0, plus p1). -/
theorem c1_counterexample :
    ∃ A, generate_sampling_coordinates cexGrid1 cexPos1 cexRot1 = some A ∧
      A.data (flatIdx (2 :: cexGrid1.shape) [0, 1, 0]) ≠
        vecAdd (rotApply (cexRot1.getD 0 idRot) (gridPoint cexGrid1 (flatIdx [2] [1])))
          (cexPos1.getD 0 zeroV) ⟨0, by norm_num⟩ := by
  refine ⟨_, rfl, ?_⟩
  norm_num [generate_sampling_coordinates, cexGrid1, cexPos1, cexRot1, arrOfList,
    flatIdx, listProd, gridPoint, rotApply, vecAdd, zeroV, idRot, vec3, List.getD]

/-- C1 amended witness at a concrete input. -/
theorem c1_amended_witness :
    ∃ A, generate_sampling_coordinates cexGrid1 cexPos1 cexRot1 = some A ∧
      A.shape = 2 :: cexGrid1.shape ∧
      ∀ q c, (hc : c < 3) →
        A.data (3 * q + c) =
          vecAdd (rotApply (cexRot1.getD (q % 2) idRot) (gridPoint cexGrid1 (q / 2)))
            (cexPos1.getD (q % 2) zeroV) ⟨c, hc⟩ :=
  c1_amended cexGrid1 cexPos1 cexRot1 2 (by decide) (by decide) (by decide)
    (by decide) (by decide)

/-- C7 (amended): a positions/orientations length mismatch makes
generate_sampling_coordinates fail only when neither batch has length 1: an
empty orientations batch fails at np.stack, and two different lengths both
exceeding 1 fail at the broadcast add (after the rotations have already been
applied); a singleton batch on either side broadcasts instead of failing. -/
theorem c7_amended (grid : Arr) (positions : List Vec3) (orientations : List Rot)
    (hne : positions.length ≠ orientations.length)
    (hp : positions.length ≠ 1) (ho : orientations.length ≠ 1) :
    generate_sampling_coordinates grid positions orientations = none := by
  simp only [generate_sampling_coordinates]
  split_ifs with h1 h2 h3 h4
  any_goals rfl
  exfalso
  rcases h4 with h | h | h
  · exact hne h.symm
  · exact ho h
  · exact hp h

/-- Grid for the C7 counterexample: a single point. -/
def cexGrid7 : Arr := arrOfList [1, 3] [5, 0, 0]

/-- C7 counterexample: two positions and a single orientation have mismatched
lengths, yet generate_sampling_coordinates succeeds (numpy broadcasts the
length-1 orientation batch) instead of failing. -/
theorem c7_counterexample :
    ([vec3 1 2 3, vec3 4 5 6] : List Vec3).length ≠ ([idRot] : List Rot).length ∧
    ∃ A, generate_sampling_coordinates cexGrid7 [vec3 1 2 3, vec3 4 5 6] [idRot] = some A :=
  ⟨by decide, _, rfl⟩

/-- C7 amended witness: three positions against two orientations fail. -/
theorem c7_amended_witness :
    ([vec3 0 0 0, vec3 0 0 0, vec3 0 0 0] : List Vec3).length ≠
        ([idRot, idRot] : List Rot).length ∧
    generate_sampling_coordinates cexGrid7
      [vec3 0 0 0, vec3 0 0 0, vec3 0 0 0] [idRot, idRot] = none :=
  ⟨by decide, c7_amended _ _ _ (by decide) (by decide) (by decide)⟩

/-- C10 (confirmed): with a single position and B > 1 orientations,
generate_sampling_coordinates does not fail: the one position is broadcast as
the translation of every rotated copy, so every 3-vector of the result is a
rotated grid point plus that position. -/
theorem c10_broadcast (grid : Arr) (p : Vec3) (orientations : List Rot)
    (hB : 1 < orientations.length)
    (h3 : 3 ∣ listProd grid.shape) (h0 : listProd grid.shape ≠ 0) :
    ∃ A, generate_sampling_coordinates grid [p] orientations = some A ∧
      A.shape = orientations.length :: grid.shape ∧
      ∀ q c, (hc : c < 3) →
        A.data (3 * q + c) =
          vecAdd (rotApply (orientations.getD (q % orientations.length) idRot)
              (gridPoint grid (q / orientations.length))) p ⟨c, hc⟩ := by
  have hB0 : orientations.length ≠ 0 := by omega
  have hB1 : orientations.length ≠ 1 := by omega
  have hgen : generate_sampling_coordinates grid [p] orientations = some
      { shape := orientations.length :: grid.shape
        data := fun q =>
          vecAdd (rotApply
              (orientations.getD (q % (orientations.length * 3) / 3 % orientations.length)
                idRot)
              (gridPoint grid (q / (orientations.length * 3))))
            (([p] : List Vec3).getD
              (q % (orientations.length * 3) / 3 % ([p] : List Vec3).length) zeroV)
            ⟨q % 3, Nat.mod_lt _ (by norm_num)⟩ } := by
    simp only [generate_sampling_coordinates]
    rw [if_neg (not_not_intro h3), if_neg h0, if_neg hB0,
      if_neg (not_not_intro (Or.inr (Or.inr
        (show ([p] : List Vec3).length = 1 from rfl)))), if_neg hB1]
  refine ⟨_, hgen, rfl, ?_⟩
  intro q c hc
  obtain ⟨hdiv, hmod, hc3⟩ := decompose3 orientations.length q c hB0 hc
  simp only [hdiv, hmod, hc3, List.length_singleton, Nat.mod_one, List.getD_cons_zero,
    Nat.mod_mod_of_dvd q (dvd_refl orientations.length)]

/-- Witness grid for C10: one point (1, 2, 3). -/
def witGrid10 : Arr := arrOfList [1, 3] [1, 2, 3]

/-- C10 witness at a concrete input: one position, two orientations. -/
theorem c10_broadcast_witness :
    1 < ([idRot, idRot] : List Rot).length ∧
    ∃ A, generate_sampling_coordinates witGrid10 [vec3 4 5 6] [idRot, idRot] = some A ∧
      A.shape = ([idRot, idRot] : List Rot).length :: witGrid10.shape ∧
      ∀ q c, (hc : c < 3) →
        A.data (3 * q + c) =
          vecAdd (rotApply (([idRot, idRot] : List Rot).getD
              (q % ([idRot, idRot] : List Rot).length) idRot)
              (gridPoint witGrid10 (q / ([idRot, idRot] : List Rot).length)))
            (vec3 4 5 6) ⟨c, hc⟩ :=
  ⟨by decide, c10_broadcast witGrid10 (vec3 4 5 6) [idRot, idRot]
    (by decide) (by decide) (by decide)⟩

/-- C9 (amended): placing an all-zero grid with a single position p and a batch
of identity orientations yields p at every grid point of every batch element.
For a batch of several distinct positions the claim fails (see the
counterexample): the positions interleave through each batch element instead of
repeating positions[i]. -/
theorem c9_amended (grid : Arr) (p : Vec3) (orientations : List Rot)
    (hz : ∀ n, n < listProd grid.shape → grid.data n = 0)
    (hid : ∀ R ∈ orientations, R = idRot)
    (hB : 1 ≤ orientations.length)
    (h3 : 3 ∣ listProd grid.shape) (h0 : listProd grid.shape ≠ 0) :
    ∃ A, generate_sampling_coordinates grid [p] orientations = some A ∧
      A.shape = orientations.length :: grid.shape ∧
      ∀ q, q < listProd grid.shape / 3 * orientations.length →
        ∀ c, (hc : c < 3) → A.data (3 * q + c) = p ⟨c, hc⟩ := by
  have hB0 : orientations.length ≠ 0 := by omega
  have hBo : (if orientations.length = 1 then ([p] : List Vec3).length
      else orientations.length) = orientations.length := by
    split_ifs with h
    · simp [h]
    · rfl
  have hgen : generate_sampling_coordinates grid [p] orientations = some
      { shape := orientations.length :: grid.shape
        data := fun q =>
          vecAdd (rotApply
              (orientations.getD (q % (orientations.length * 3) / 3 % orientations.length)
                idRot)
              (gridPoint grid (q / (orientations.length * 3))))
            (([p] : List Vec3).getD
              (q % (orientations.length * 3) / 3 % ([p] : List Vec3).length) zeroV)
            ⟨q % 3, Nat.mod_lt _ (by norm_num)⟩ } := by
    simp only [generate_sampling_coordinates]
    rw [if_neg (not_not_intro h3), if_neg h0, if_neg hB0,
      if_neg (not_not_intro (Or.inr (Or.inr
        (show ([p] : List Vec3).length = 1 from rfl)))), hBo]
  refine ⟨_, hgen, rfl, ?_⟩
  intro q hq c hc
  obtain ⟨hdiv, hmod, hc3⟩ := decompose3 orientations.length q c hB0 hc
  simp only [hdiv, hmod, hc3, List.length_singleton, Nat.mod_one, List.getD_cons_zero,
    Nat.mod_mod_of_dvd q (dvd_refl orientations.length)]
  have hmem : orientations.getD (q % orientations.length) idRot = idRot := by
    have hlt : q % orientations.length < orientations.length :=
      Nat.mod_lt _ (by omega)
    rw [List.getD_eq_getElem _ _ hlt]
    exact hid _ (List.getElem_mem _)
  have hj : q / orientations.length < listProd grid.shape / 3 := by
    rw [Nat.div_lt_iff_lt_mul (by omega : 0 < orientations.length)]
    exact hq
  have hzero : gridPoint grid (q / orientations.length) = zeroV := by
    funext i
    apply hz
    have h33 : 3 * (listProd grid.shape / 3) = listProd grid.shape :=
      Nat.mul_div_cancel' h3
    have := i.isLt
    omega
  rw [hmem, rotApply_id, hzero]
  show (0 : ℚ) + p ⟨c, hc⟩ = p ⟨c, hc⟩
  rw [zero_add]

/-- All-zero grid of two points for the C9 counterexample; the data function is
identically zero. -/
def cexGrid9 : Arr := arrOfList [2, 3] []

/-- Positions for the C9 counterexample: two distinct positions. -/
def cexPos9 : List Vec3 := [vec3 0 0 0, vec3 10 0 0]

/-- C9 counterexample: with the all-zero two-point grid, batch positions
p0 = (0,0,0) and p1 = (10,0,0) and two identity orientations, the claim predicts
batch element 0 to hold p0 at every grid point, but at grid point 1 (flat offset
(0,1,0)) the produced array holds p1's first component 10 instead of 0. -/
theorem c9_counterexample :
    ∃ A, generate_sampling_coordinates cexGrid9 cexPos9 [idRot, idRot] = some A ∧
      A.data (flatIdx (2 :: cexGrid9.shape) [0, 1, 0]) ≠
        cexPos9.getD 0 zeroV ⟨0, by norm_num⟩ := by
  refine ⟨_, rfl, ?_⟩
  norm_num [cexGrid9, cexPos9, arrOfList, flatIdx, listProd, gridPoint, rotApply,
    vecAdd, zeroV, idRot, vec3, List.getD]

/-- Witness all-zero grid of one point for C9. -/
def witGrid9 : Arr := arrOfList [1, 3] []

/-- C9 amended witness at a concrete input: a single position (7, 8, 9). -/
theorem c9_amended_witness :
    ∃ A, generate_sampling_coordinates witGrid9 [vec3 7 8 9] [idRot] = some A ∧
      A.shape = ([idRot] : List Rot).length :: witGrid9.shape ∧
      ∀ q, q < listProd witGrid9.shape / 3 * ([idRot] : List Rot).length →
        ∀ c, (hc : c < 3) → A.data (3 * q + c) = vec3 7 8 9 ⟨c, hc⟩ :=
  c9_amended witGrid9 (vec3 7 8 9) [idRot] (fun n _ => rfl)
    (fun R hR => List.mem_singleton.mp hR) (by decide) (by decide) (by decide)

/-- Closed form for the linspace-based axis coordinate: at every valid index the
coordinate is (i - (ln - 1) / 2) * spacing; the length-1 branch agrees with the
formula since both give 0. -/
theorem coord1D_eq (ln : ℕ) (sp : ℚ) (i : ℕ) (hi : i < ln) :
    coord1D ln sp i = ((i : ℚ) - ((ln : ℚ) - 1) / 2) * sp := by
  unfold coord1D
  split_ifs with h
  · subst h
    have hi0 : i = 0 := by omega
    subst hi0
    norm_num
  · have hln : 2 ≤ ln := by omega
    have hne : ((ln : ℚ) - 1) ≠ 0 := by
      have h2 : (2 : ℚ) ≤ (ln : ℚ) := by exact_mod_cast hln
      linarith
    field_simp
    ring

/-- C4 (confirmed): for positive shape and spacing, the element of the
generate_3D_grid array at grid index (i0, i1, i2) and component c equals
(ic - (shape c - 1) / 2) * spacing c.  Along an axis of length L > 1 the
coordinates therefore run evenly spaced, with step spacing c, from
-(L-1)*spacing/2 at index 0 to +(L-1)*spacing/2 at index L-1, symmetric about
zero; along an axis of length 1 the only index is 0 and the formula gives
exactly 0.  The squeeze flag does not affect the stored values. -/
theorem c4_grid_values (s : Fin 3 → ℕ) (sp : Fin 3 → ℚ) (squeeze : Bool)
    (hpos : ∀ d, 0 < s d) (_hsp : ∀ d, 0 < sp d)
    (i : Fin 3 → ℕ) (hi : ∀ d, i d < s d) (c : Fin 3) :
    (generate_3D_grid s sp squeeze).data (((i 0 * s 1 + i 1) * s 2 + i 2) * 3 + c.val)
      = ((i c : ℚ) - ((s c : ℚ) - 1) / 2) * sp c := by
  have hc3 : c.val < 3 := c.isLt
  have hq3 : (((i 0 * s 1 + i 1) * s 2 + i 2) * 3 + c.val) % 3 = c.val := by omega
  have hqd : (((i 0 * s 1 + i 1) * s 2 + i 2) * 3 + c.val) / 3
      = (i 0 * s 1 + i 1) * s 2 + i 2 := by omega
  have e2 : ((i 0 * s 1 + i 1) * s 2 + i 2) / s 2 = i 0 * s 1 + i 1 := by
    rw [add_comm, Nat.add_mul_div_right _ _ (hpos 2), Nat.div_eq_of_lt (hi 2), zero_add]
  have e2m : ((i 0 * s 1 + i 1) * s 2 + i 2) % s 2 = i 2 := by
    rw [add_comm, Nat.add_mul_mod_self_right, Nat.mod_eq_of_lt (hi 2)]
  have e1 : (i 0 * s 1 + i 1) / s 1 = i 0 := by
    rw [add_comm, Nat.add_mul_div_right _ _ (hpos 1), Nat.div_eq_of_lt (hi 1), zero_add]
  have e1m : (i 0 * s 1 + i 1) % s 1 = i 1 := by
    rw [add_comm, Nat.add_mul_mod_self_right, Nat.mod_eq_of_lt (hi 1)]
  simp only [generate_3D_grid, hq3, hqd, e2, e2m, e1, e1m, Fin.eta]
  fin_cases c <;> simp only [Fin.val] <;> norm_num
  · exact coord1D_eq (s 0) (sp 0) (i 0) (hi 0)
  · exact coord1D_eq (s 1) (sp 1) (i 1) (hi 1)
  · exact coord1D_eq (s 2) (sp 2) (i 2) (hi 2)

/-- C4 witness at a concrete input: shape (2, 3, 1), spacing (1, 2, 5), index
(1, 2, 0), component 1. -/
theorem c4_grid_values_witness :
    (∀ d, 0 < (![2, 3, 1] : Fin 3 → ℕ) d) ∧
    (∀ d, 0 < (![1, 2, 5] : Fin 3 → ℚ) d) ∧
    (∀ d, (![1, 2, 0] : Fin 3 → ℕ) d < (![2, 3, 1] : Fin 3 → ℕ) d) ∧
    (generate_3D_grid ![2, 3, 1] ![1, 2, 5] true).data
        ((((![1, 2, 0] : Fin 3 → ℕ) 0 * (![2, 3, 1] : Fin 3 → ℕ) 1
            + (![1, 2, 0] : Fin 3 → ℕ) 1) * (![2, 3, 1] : Fin 3 → ℕ) 2
            + (![1, 2, 0] : Fin 3 → ℕ) 2) * 3 + (1 : Fin 3).val)
      = (((![1, 2, 0] : Fin 3 → ℕ) (1 : Fin 3) : ℚ)
          - (((![2, 3, 1] : Fin 3 → ℕ) (1 : Fin 3) : ℚ) - 1) / 2)
          * (![1, 2, 5] : Fin 3 → ℚ) (1 : Fin 3) :=
  ⟨by decide, by intro d; fin_cases d <;> norm_num,
    by decide,
    c4_grid_values ![2, 3, 1] ![1, 2, 5] true (by decide)
      (by intro d; fin_cases d <;> norm_num) ![1, 2, 0] (by decide) 1⟩

/-- C5 (code bug): generate_1D_grid and generate_2D_grid delegate to
generate_3D_grid with the default squeeze=True, so the squeeze also removes a
requested axis of length 1: generate_1D_grid 1 returns shape (3,) instead of the
documented (1, 3), and generate_2D_grid (1, 2) returns shape (2, 3) instead of
(1, 2, 3); for lengths greater than 1 the documented shapes do come out. -/
theorem c5_squeeze_bug :
    (generate_1D_grid 2 1).shape = [2, 3] ∧
    (generate_1D_grid 1 1).shape = [3] ∧
    (generate_1D_grid 1 1).shape ≠ [1, 3] ∧
    (generate_2D_grid ![1, 2] ![1, 1]).shape = [2, 3] ∧
    (generate_2D_grid ![1, 2] ![1, 1]).shape ≠ [1, 2, 3] := by
  refine ⟨rfl, rfl, by decide, rfl, by decide⟩

/-- C6 (amended): the grid generator fails exactly on a negative shape entry
(np.linspace rejects a negative sample count); a zero shape entry yields an
empty grid without error, and non-positive spacing values are accepted without
error, so non-positive shape or spacing input is not rejected in general. -/
theorem c6_amended :
    (∀ (s : Fin 3 → ℤ) (sp : Fin 3 → ℚ) (sq : Bool),
        (s 0 < 0 ∨ s 1 < 0 ∨ s 2 < 0) → generate_3D_grid_checked s sp sq = none) ∧
    (∀ (s : Fin 3 → ℤ) (sp : Fin 3 → ℚ) (sq : Bool),
        0 ≤ s 0 → 0 ≤ s 1 → 0 ≤ s 2 →
        ∃ A, generate_3D_grid_checked s sp sq = some A) := by
  constructor
  · intro s sp sq h
    simp only [generate_3D_grid_checked, if_pos h]
  · intro s sp sq h0 h1 h2
    refine ⟨generate_3D_grid (fun d => (s d).toNat) sp sq, ?_⟩
    simp only [generate_3D_grid_checked]
    rw [if_neg (by omega)]

/-- C6 counterexample: a shape containing the non-positive entry 0 and a spacing
containing the non-positive entry 0 both produce a grid instead of failing. -/
theorem c6_counterexample :
    ¬ (0 < (0 : ℤ)) ∧
    (∃ A, generate_3D_grid_checked ![0, 2, 2] ![1, 1, 1] true = some A) ∧
    ¬ (0 < (0 : ℚ)) ∧
    (∃ A, generate_3D_grid_checked ![2, 2, 2] ![0, 1, 1] true = some A) :=
  ⟨by norm_num, ⟨_, rfl⟩, by norm_num, ⟨_, rfl⟩⟩

/-- C6 amended witness: a negative shape entry fails, a non-negative one
succeeds. -/
theorem c6_amended_witness :
    generate_3D_grid_checked ![-1, 2, 2] ![1, 1, 1] true = none ∧
    ∃ A, generate_3D_grid_checked ![3, 1, 2] ![1, 1, 1] false = some A :=
  ⟨c6_amended.1 ![-1, 2, 2] ![1, 1, 1] true (Or.inl (by decide)),
    c6_amended.2 ![3, 1, 2] ![1, 1, 1] false (by decide) (by decide) (by decide)⟩

/-- Bridge from getLastD to getLast on a nonempty list. -/
theorem getLastD_eq_getLast (l : List ℕ) (h : l ≠ []) (a : ℕ) :
    l.getLastD a = l.getLast h := by
  cases l with
  | nil => exact absurd rfl h
  | cons x t => rw [List.getLastD_eq_getLast?, List.getLast?_eq_getLast _ h]; rfl

/-- Shape of swapaxes(-1, 0) on a shape of the form x :: l ++ [y]. -/
theorem swapaxesFL_shape (a : Arr) (x y : ℕ) (l : List ℕ)
    (hs : a.shape = x :: (l ++ [y])) :
    (swapaxesFL a).shape = y :: (l ++ [x]) := by
  simp only [swapaxesFL, hs, swapFL_concat]

/-- Entry of swapaxes(-1, 0) at a valid multi-index: the input entry at the
multi-index with first and last components exchanged. -/
theorem swapaxesFL_get (a : Arr) (x y : ℕ) (l : List ℕ)
    (hs : a.shape = x :: (l ++ [y])) (j i : ℕ) (js : List ℕ)
    (hj : j < x) (hi : i < y) (hjs : List.Forall₂ (· < ·) js l) :
    (swapaxesFL a).data (flatIdx (y :: (l ++ [x])) (i :: (js ++ [j])))
      = a.data (flatIdx (x :: (l ++ [y])) (j :: (js ++ [i]))) := by
  have hvalid : List.Forall₂ (· < ·) (i :: (js ++ [j])) (y :: (l ++ [x])) :=
    List.Forall₂.cons hi (List.rel_append hjs (List.Forall₂.cons hj List.Forall₂.nil))
  simp only [swapaxesFL, hs, swapFL_concat]
  rw [unflatten_flatIdx hvalid, swapFL_concat]

/-- Normal form of sample_volume_at_coordinates on a well-formed coordinate
batch of shape (B, g1, *gs, 3) against a 3-dimensional volume and an admissible
spline order: the call succeeds with the swapped reshape of the pointwise
interpolation of the flat coordinate list. -/
theorem sample_eq_some (vol : Volume) (coords : Arr) (order : ℕ)
    (B g1 : ℕ) (gs : List ℕ)
    (hsh : coords.shape = B :: g1 :: (gs ++ [3]))
    (hv : vol.ndim = 3) (ho : order ≤ 5) :
    sample_volume_at_coordinates vol coords order = some
      (swapaxesFL { shape := (g1 :: gs) ++ [B]
                    data := fun q => vol.interp (coordPoint coords q) }) := by
  have hsz : listProd (B :: g1 :: (gs ++ [3])) = (B * (g1 * listProd gs)) * 3 := by
    rw [listProd_cons, listProd_cons, listProd_concat]
    ring
  have hdvd : 3 ∣ listProd (B :: g1 :: (gs ++ [3])) :=
    ⟨B * (g1 * listProd gs), by rw [hsz]; ring⟩
  have hdiv : listProd (B :: g1 :: (gs ++ [3])) / 3 = B * (g1 * listProd gs) := by
    rw [hsz, Nat.mul_div_cancel _ (by norm_num)]
  have hdl : (g1 :: (gs ++ [3])).dropLast = g1 :: gs := by
    rw [show g1 :: (gs ++ [3]) = (g1 :: gs) ++ [3] from rfl, List.dropLast_concat]
  obtain ⟨sh, da⟩ := coords
  simp only [Arr.shape] at hsh
  subst hsh
  simp only [sample_volume_at_coordinates, hdl]
  rw [if_neg (not_not_intro hdvd), if_neg (by simp [hv]), if_neg (by omega),
    if_neg (not_not_intro (by rw [hdiv, listProd_cons]; ring))]

/-- C2 (amended): for coordinates of shape (B, g1, ..., gk, 3) with k at least 1,
a 3-dimensional volume and an admissible spline order, sample_volume_at_coordinates
succeeds, but its output shape is (B, g2, ..., gk, g1): the batch moves from axis
0 of the coordinates to axis 0 of the output (not to the last axis), and the
first grid axis moves to the last position; the documented shape
(g1, ..., gk, B) is produced only when it happens to coincide with this one. -/
theorem c2_amended (vol : Volume) (coords : Arr) (order : ℕ)
    (B g1 : ℕ) (gs : List ℕ)
    (hsh : coords.shape = B :: g1 :: (gs ++ [3]))
    (hv : vol.ndim = 3) (ho : order ≤ 5) :
    ∃ A, sample_volume_at_coordinates vol coords order = some A ∧
      A.shape = B :: (gs ++ [g1]) :=
  ⟨_, sample_eq_some vol coords order B g1 gs hsh hv ho,
    swapaxesFL_shape _ g1 B gs rfl⟩

/-- A 3-dimensional volume with the zero interpolation function, for concrete
counterexamples where only shapes matter. -/
def vol3 : Volume := { ndim := 3, interp := fun _ => 0 }

/-- Concrete coordinate batch of shape (2, 3, 5, 3) for the C2 counterexample. -/
def cexCoords2 : Arr := arrOfList [2, 3, 5, 3] []

/-- C2 counterexample: for coordinates of shape (2, 3, 5, 3), the claim predicts
output shape (3, 5, 2), but sample_volume_at_coordinates returns shape
(2, 5, 3). -/
theorem c2_counterexample :
    ∃ A, sample_volume_at_coordinates vol3 cexCoords2 3 = some A ∧
      A.shape = [2, 5, 3] ∧ A.shape ≠ [3, 5, 2] := by
  refine ⟨_, rfl, rfl, by decide⟩

/-- C2 amended witness at the concrete shape (2, 3, 5, 3). -/
theorem c2_amended_witness :
    cexCoords2.shape = 2 :: 3 :: ([5] ++ [3]) ∧ vol3.ndim = 3 ∧
    ∃ A, sample_volume_at_coordinates vol3 cexCoords2 3 = some A ∧
      A.shape = 2 :: ([5] ++ [3]) :=
  ⟨rfl, rfl, c2_amended vol3 cexCoords2 3 2 3 [5] rfl rfl (by norm_num)⟩

/-- C8 (amended): sample_volume_at_coordinates does fail for every coordinate
array with at least one element whose trailing dimension is not 3, and for every
volume that is not 3-dimensional; but a coordinate array with zero elements and
a wrong trailing dimension is accepted and yields an empty result (see the
counterexample), so the failure is not guaranteed for degenerate empty input,
and the wrong-trailing-dimension failure can surface only at the final reshape,
after the interpolation has run. -/
theorem c8_amended :
    (∀ (vol : Volume) (coords : Arr) (order : ℕ),
        0 < listProd coords.shape → coords.shape.getLastD 0 ≠ 3 →
        sample_volume_at_coordinates vol coords order = none) ∧
    (∀ (vol : Volume) (coords : Arr) (order : ℕ),
        vol.ndim ≠ 3 → sample_volume_at_coordinates vol coords order = none) := by
  constructor
  · intro vol coords order hpos hlast
    obtain ⟨sh, da⟩ := coords
    simp only [Arr.shape] at hpos hlast ⊢
    match sh, hpos, hlast with
    | [], _, _ => rfl
    | [b], _, _ => rfl
    | b :: d :: rest, hpos, hlast =>
      simp only [sample_volume_at_coordinates]
      split_ifs with h1 h2 h3 h4
      any_goals rfl
      exfalso
      have hne : d :: rest ≠ [] := List.cons_ne_nil _ _
      set t := (d :: rest).getLast hne with ht
      have hsplit : (d :: rest).dropLast ++ [t] = d :: rest :=
        List.dropLast_append_getLast hne
      have hszeq : listProd (b :: d :: rest)
          = b * (listProd ((d :: rest).dropLast) * t) := by
        rw [listProd_cons, ← hsplit, listProd_concat, hsplit]
      have hlastval : (b :: d :: rest).getLastD 0 = t := by
        rw [List.getLastD_cons, getLastD_eq_getLast _ hne]
      have ht3 : t ≠ 3 := by rw [← hlastval]; exact hlast
      have h4' : listProd (b :: d :: rest) / 3 = listProd ((d :: rest).dropLast) * b := by
        simpa using h4
      have hmul : listProd ((d :: rest).dropLast) * b * 3 = listProd (b :: d :: rest) := by
        rw [← h4', Nat.div_mul_cancel h1]
      rw [hszeq] at hmul hpos
      have hb : b ≠ 0 := by rintro rfl; simp at hpos
      have hPt : listProd ((d :: rest).dropLast) * t ≠ 0 := by
        intro h; rw [h, Nat.mul_zero] at hpos; simp at hpos
      obtain ⟨hP, ht0⟩ := Nat.mul_ne_zero_iff.mp hPt
      have hPb : 0 < listProd ((d :: rest).dropLast) * b :=
        Nat.pos_of_ne_zero (Nat.mul_ne_zero hP hb)
      have key : listProd ((d :: rest).dropLast) * b * 3
          = listProd ((d :: rest).dropLast) * b * t := by
        rw [hmul]; ring
      exact ht3 (Nat.eq_of_mul_eq_mul_left hPb key).symm
  · intro vol coords order hv
    obtain ⟨sh, da⟩ := coords
    match sh with
    | [] => rfl
    | [b] => rfl
    | b :: d :: rest =>
      simp only [sample_volume_at_coordinates]
      split_ifs <;> rfl

/-- Empty coordinate array of shape (0, 5) for the C8 counterexample. -/
def cexCoords8 : Arr := arrOfList [0, 5] []

/-- A 2-dimensional volume for the C8 witness. -/
def vol2 : Volume := { ndim := 2, interp := fun _ => 0 }

/-- C8 counterexample: a coordinate array of shape (0, 5) has trailing dimension
5, yet sample_volume_at_coordinates succeeds on it (all reshapes of the empty
data go through) and returns an empty array of shape (0,). -/
theorem c8_counterexample :
    cexCoords8.shape.getLastD 0 ≠ 3 ∧
    ∃ A, sample_volume_at_coordinates vol3 cexCoords8 3 = some A ∧ A.shape = [0] :=
  ⟨by decide, _, rfl, rfl⟩

/-- C8 amended witness: a nonempty array with trailing dimension 7 fails, and a
2-dimensional volume fails on well-formed coordinates. -/
theorem c8_amended_witness :
    0 < listProd (arrOfList [2, 7] []).shape ∧
    (arrOfList [2, 7] []).shape.getLastD 0 ≠ 3 ∧
    sample_volume_at_coordinates vol3 (arrOfList [2, 7] []) 3 = none ∧
    vol2.ndim ≠ 3 ∧
    sample_volume_at_coordinates vol2 cexCoords2 3 = none :=
  ⟨by decide, by decide, c8_amended.1 vol3 (arrOfList [2, 7] []) 3 (by decide) (by decide),
    by decide, c8_amended.2 vol2 cexCoords2 3 (by decide)⟩

/-- The successful payload of generate_sampling_coordinates in the equal-length
case, as a named array. -/
def genArr (grid : Arr) (pos : List Vec3) (orient : List Rot) (B : ℕ) : Arr :=
  { shape := B :: grid.shape
    data := fun q =>
      vecAdd (rotApply (orient.getD (q % (B * 3) / 3 % B) idRot)
          (gridPoint grid (q / (B * 3))))
        (pos.getD (q % (B * 3) / 3 % B) zeroV)
        ⟨q % 3, Nat.mod_lt _ (by norm_num)⟩ }

/-- gen_eq_some restated through the named payload. -/
theorem gen_eq_genArr (grid : Arr) (pos : List Vec3) (orient : List Rot) (B : ℕ)
    (h3 : 3 ∣ listProd grid.shape) (h0 : listProd grid.shape ≠ 0)
    (hp : pos.length = B) (ho : orient.length = B) (hB : B ≠ 0) :
    generate_sampling_coordinates grid pos orient = some (genArr grid pos orient B) :=
  gen_eq_some grid pos orient B h3 h0 hp ho hB

/-- C3 (confirmed): composing the two stages is per-pose correct.  For a grid of
shape (g1, ..., gk, 3), B positions and B orientations, and a 3-dimensional
volume, sampling the generated coordinates yields an array of shape
(B, g2, ..., gk, g1) whose entry at multi-index (i, j2, ..., jk, j1) is the
volume interpolated at orientations[i] applied to grid[j1, ..., jk] plus
positions[i]: the point-major layout of the pose stage and the reshape and
swapaxes of the sampling stage cancel. -/
theorem c3_composition (vol : Volume) (grid : Arr) (pos : List Vec3)
    (orient : List Rot) (B g1 : ℕ) (gs : List ℕ) (order : ℕ)
    (hv : vol.ndim = 3) (ho : order ≤ 5)
    (hg : grid.shape = g1 :: (gs ++ [3]))
    (hp : pos.length = B) (hor : orient.length = B)
    (i j1 : ℕ) (js : List ℕ)
    (hi : i < B) (hj1 : j1 < g1) (hjs : List.Forall₂ (· < ·) js gs) :
    ∃ A, (generate_sampling_coordinates grid pos orient).bind
        (fun C => sample_volume_at_coordinates vol C order) = some A ∧
      A.shape = B :: (gs ++ [g1]) ∧
      A.data (flatIdx (B :: (gs ++ [g1])) (i :: (js ++ [j1])))
        = vol.interp (vecAdd
            (rotApply (orient.getD i idRot)
              (gridPoint grid (flatIdx (g1 :: gs) (j1 :: js))))
            (pos.getD i zeroV)) := by
  have hB0 : B ≠ 0 := by omega
  have hgs0 : 0 < listProd gs := listProd_pos_of_forall₂ hjs
  have hsz3 : 3 ∣ listProd grid.shape := by
    rw [hg, listProd_cons, listProd_concat]
    exact ⟨g1 * listProd gs, by ring⟩
  have hsz0 : listProd grid.shape ≠ 0 := by
    rw [hg, listProd_cons, listProd_concat]
    exact Nat.mul_ne_zero (by omega) (Nat.mul_ne_zero (by omega) (by norm_num))
  have hCsh : (genArr grid pos orient B).shape = B :: g1 :: (gs ++ [3]) := by
    show B :: grid.shape = _
    rw [hg]
  have heq : (generate_sampling_coordinates grid pos orient).bind
      (fun C => sample_volume_at_coordinates vol C order) = some (swapaxesFL
        { shape := (g1 :: gs) ++ [B]
          data := fun q => vol.interp (coordPoint (genArr grid pos orient B) q) }) := by
    rw [gen_eq_genArr grid pos orient B hsz3 hsz0 hp hor hB0, Option.some_bind]
    exact sample_eq_some vol (genArr grid pos orient B) order B g1 gs hCsh hv ho
  refine ⟨_, heq, ?_, ?_⟩
  · exact swapaxesFL_shape _ g1 B gs rfl
  · have hget := swapaxesFL_get
      ({ shape := (g1 :: gs) ++ [B]
         data := fun q => vol.interp (coordPoint (genArr grid pos orient B) q) } : Arr)
      g1 B gs rfl j1 i js hj1 hi hjs
    rw [hget]
    have hlen : (j1 :: js).length = (g1 :: gs).length := by
      simp [hjs.length_eq]
    have hflat : flatIdx (g1 :: (gs ++ [B])) (j1 :: (js ++ [i]))
        = flatIdx (g1 :: gs) (j1 :: js) * B + i :=
      flatIdx_concat B i hlen
    show vol.interp (coordPoint (genArr grid pos orient B)
        (flatIdx (g1 :: (gs ++ [B])) (j1 :: (js ++ [i])))) = _
    rw [hflat]
    congr 1
    funext c
    obtain ⟨hdiv, hmod, hc3⟩ :=
      decompose3 B (flatIdx (g1 :: gs) (j1 :: js) * B + i) c.val hB0 c.isLt
    have hqB : (flatIdx (g1 :: gs) (j1 :: js) * B + i) % B = i := by
      rw [Nat.mul_comm, Nat.mul_add_mod, Nat.mod_eq_of_lt hi]
    have hqD : (flatIdx (g1 :: gs) (j1 :: js) * B + i) / B
        = flatIdx (g1 :: gs) (j1 :: js) := by
      rw [Nat.mul_comm, Nat.mul_add_div (by omega), Nat.div_eq_of_lt hi, Nat.add_zero]
    simp only [coordPoint, genArr]
    simp only [hdiv, hmod, hc3, hqB, hqD, Fin.eta, Nat.mod_eq_of_lt hi]

/-- C3 witness at a concrete input: the two-point grid, two poses, batch index 1,
grid index 0. -/
theorem c3_composition_witness :
    ∃ A, (generate_sampling_coordinates cexGrid1 cexPos1 cexRot1).bind
        (fun C => sample_volume_at_coordinates vol3 C 3) = some A ∧
      A.shape = 2 :: (([] : List ℕ) ++ [2]) ∧
      A.data (flatIdx (2 :: (([] : List ℕ) ++ [2])) (1 :: (([] : List ℕ) ++ [0])))
        = vol3.interp (vecAdd
            (rotApply (cexRot1.getD 1 idRot)
              (gridPoint cexGrid1 (flatIdx (2 :: ([] : List ℕ)) (0 :: ([] : List ℕ)))))
            (cexPos1.getD 1 zeroV)) :=
  c3_composition vol3 cexGrid1 cexPos1 cexRot1 2 2 [] 3 rfl (by norm_num) rfl rfl rfl
    1 0 [] (by norm_num) (by norm_num) List.Forall₂.nil
